import Mathlib

/-!
Verification development for the Oratio bias-detection backend (`main.py`).

The core analysis pipeline of the source is embedded shallowly:
* sentence segmentation (the `re.split` on `[.!?]+` runs followed by strip/filter),
* the JSON-reply normalization of the two provider adapters
  (`analyze_text_with_gemini`, `analyze_text_with_groq`),
* the fallback orchestrator (`analyze_text_with_fallback`) over the global
  provider state (`current_provider`, `gemini_quota_exceeded`),
* the per-request aggregation loop of the `/analyze` endpoint (`analyze_text`).

Remote provider calls are modelled by an oracle (`UnitEnv`) giving, for each
unit, the outcome each provider would produce if called: either a raw textual
reply, or an exception classified the way the source classifies it (a message
carrying a quota/429 marker versus any other failure).  Python floats are
modelled as exact rationals; `round(x, 2)` is modelled as round-half-to-even
of `100 * x` (the tie rule of the Python `round` builtin).
-/

namespace Oratio

/-! ### Characters and whitespace -/

/-- The opening curly brace character (written via its code point). -/
def lbraceC : Char := Char.ofNat 123

/-- The closing curly brace character (written via its code point). -/
def rbraceC : Char := Char.ofNat 125

/-- Whitespace stripped by Python `str.strip()` (ASCII fragment:
space, tab, newline, carriage return, vertical tab, form feed). -/
def wsPy (c : Char) : Bool :=
  c == '\n' || c == '\r' || c == '\t' || c == ' ' || c == Char.ofNat 11 || c == Char.ofNat 12

/-- Whitespace ignored by the Python `json.loads` around tokens:
exactly space, tab, newline, carriage return. -/
def wsJson (c : Char) : Bool :=
  c == '\n' || c == '\r' || c == '\t' || c == ' '

/-- Drop leading and trailing characters satisfying `p` (the shape of
the Python `str.strip()` for `p = wsPy`). -/
def trimBy (p : Char → Bool) (l : List Char) : List Char :=
  ((l.dropWhile p).reverse.dropWhile p).reverse

/-- Python `str.strip()` on a string. -/
def pyStrip (s : String) : String := String.mk (trimBy wsPy s.toList)

/-! ### Segmentation: the `re.split` on `[.!?]+` in `analyze_text` -/

/-- The three sentence-boundary characters of the regex `[.!?]+`. -/
def isSentencePunct (c : Char) : Bool := c == '.' || c == '!' || c == '?'

/-- Model of `re.split` with a `[...]+` character-class pattern: the text is cut at
every maximal run of characters satisfying `p`; the run itself is consumed.
Adjacent runs are one boundary (the `+`), so `"a..b"` gives two pieces, while
a boundary at either end contributes an empty piece, as `re.split` does. -/
def maxRunSplit (p : Char → Bool) : List Char → List (List Char)
  | [] => [[]]
  | [c] => if p c then [[], []] else [[c]]
  | c :: d :: cs =>
    match maxRunSplit p (d :: cs) with
    | [] => [[]]
    | piece :: rest =>
      if p c then (if p d then piece :: rest else [] :: piece :: rest)
      else (c :: piece) :: rest

/-- Model of the source line splitting on `[.!?]+` runs followed by
the strip-and-filter comprehension, at the character-list level. -/
def segmentL (l : List Char) : List (List Char) :=
  ((maxRunSplit isSentencePunct l).map (trimBy wsPy)).filter (fun cs => !cs.isEmpty)

/-- The Segmenter of the source: split at maximal `[.!?]` runs, strip each
piece, discard empty pieces, preserve order. -/
def segment (text : String) : List String :=
  (segmentL text.toList).map String.mk

/-! ### JSON values and a model of `json.loads`

The parser covers the JSON fragment the pipeline exchanges: objects, arrays,
strings without exotic escapes, integer numbers, booleans and null.  Numbers
with a fractional part or exponent, and `\\u` escapes, are outside the model
and make the parse fail (no concrete input below uses them). -/

inductive Json where
  | null
  | bool (b : Bool)
  | num (n : Int)
  | str (s : String)
  | arr (elems : List Json)
  | obj (fields : List (String × Json))

/-- Python `dict` lookup on the fields produced by `json.loads`: with
duplicate keys the later occurrence wins, so the last match is taken. -/
def jlookup (kvs : List (String × Json)) (k : String) : Option Json :=
  ((kvs.filter (fun kv => kv.1 == k)).getLast?).map (fun kv => kv.2)

/-- JSON string-escape map (`\\u` escapes are outside the model). -/
def escPairs : List (Char × Char) :=
  [('n', '\n'), ('t', '\t'), ('r', '\r'), ('"', '"'), ('/', '/'), ('\\', '\\'),
   ('b', Char.ofNat 8), ('f', Char.ofNat 12)]

/-- Decode one two-character escape by table lookup. -/
def escChar (c : Char) : Option Char :=
  (escPairs.find? (fun pc => pc.1 == c)).map (fun pc => pc.2)

/-- Parse the body of a JSON string literal (after the opening quote),
returning the decoded characters and the remainder after the closing quote.
Raw control characters are rejected, as in strict `json.loads`. -/
def strBody : List Char → Option (List Char × List Char)
  | [] => none
  | c :: cs =>
    if c == '"' then some ([], cs)
    else if c == '\\' then
      match cs with
      | [] => none
      | e :: cs2 =>
        match escChar e with
        | some ec =>
          match strBody cs2 with
          | some (chars, rest) => some (ec :: chars, rest)
          | none => none
        | none => none
    else if c.toNat < 32 then none
    else
      match strBody cs with
      | some (chars, rest) => some (c :: chars, rest)
      | none => none

/-- Numeric value of a digit run. -/
def digitsToNat (ds : List Char) : Nat :=
  ds.foldl (fun acc c => acc * 10 + (c.toNat - 48)) 0

/-- Parse a JSON number token (integer fragment).  JSON forbids leading
zeros; a following `.`/`e`/`E` would start a float, which is outside the
model, so the parse fails there. -/
def numToken (cs : List Char) : Option (Json × List Char) :=
  let neg := cs.head? == some '-'
  let cs1 := if neg then cs.tail else cs
  let ds := cs1.takeWhile Char.isDigit
  let rest := cs1.dropWhile Char.isDigit
  if ds.isEmpty then none
  else if decide (1 < ds.length) && (ds.head? == some '0') then none
  else
    match rest.head? with
    | some c =>
      if c == '.' || c == 'e' || c == 'E' then none
      else some (.num (if neg then -(digitsToNat ds : Int) else (digitsToNat ds : Int)), rest)
    | none => some (.num (if neg then -(digitsToNat ds : Int) else (digitsToNat ds : Int)), rest)

mutual

/-- Parse one JSON value, skipping leading JSON whitespace.  `fuel` only
bounds nesting; `input length + 1` is always enough because every recursive
step first consumes at least one character. -/
def parseVal : Nat → List Char → Option (Json × List Char)
  | 0, _ => none
  | fuel + 1, cs =>
    match cs.dropWhile wsJson with
    | [] => none
    | c :: rest =>
      if c == '"' then
        match strBody rest with
        | some (chars, r) => some (.str (String.mk chars), r)
        | none => none
      else if c == lbraceC then
        match rest.dropWhile wsJson with
        | d :: r2 =>
          if d == rbraceC then some (.obj [], r2)
          else
            match parseMembers fuel rest with
            | some (fl, r3) => some (.obj fl, r3)
            | none => none
        | [] => none
      else if c == '[' then
        match rest.dropWhile wsJson with
        | d :: r2 =>
          if d == ']' then some (.arr [], r2)
          else
            match parseItems fuel rest with
            | some (vs, r3) => some (.arr vs, r3)
            | none => none
        | [] => none
      else if c == 't' then
        if (['r', 'u', 'e'] : List Char).isPrefixOf rest then some (.bool true, rest.drop 3)
        else none
      else if c == 'f' then
        if (['a', 'l', 's', 'e'] : List Char).isPrefixOf rest then some (.bool false, rest.drop 4)
        else none
      else if c == 'n' then
        if (['u', 'l', 'l'] : List Char).isPrefixOf rest then some (.null, rest.drop 3)
        else none
      else if c == '-' || c.isDigit then numToken (c :: rest)
      else none

/-- Parse `ws key ws : value (ws , ...)* ws }` — the members of a non-empty
object (a trailing comma is a parse error, as in `json.loads`). -/
def parseMembers : Nat → List Char → Option (List (String × Json) × List Char)
  | 0, _ => none
  | fuel + 1, cs =>
    match cs.dropWhile wsJson with
    | c :: r1 =>
      if c == '"' then
        match strBody r1 with
        | some (key, r2) =>
          match r2.dropWhile wsJson with
          | k :: r3 =>
            if k == ':' then
              match parseVal fuel r3 with
              | some (v, r4) =>
                match r4.dropWhile wsJson with
                | m :: r5 =>
                  if m == ',' then
                    match parseMembers fuel r5 with
                    | some (fl, r6) => some ((String.mk key, v) :: fl, r6)
                    | none => none
                  else if m == rbraceC then some ([(String.mk key, v)], r5)
                  else none
                | [] => none
              | none => none
            else none
          | [] => none
        | none => none
      else none
    | [] => none

/-- Parse `ws value (ws , ...)* ws ]` — the items of a non-empty array. -/
def parseItems : Nat → List Char → Option (List Json × List Char)
  | 0, _ => none
  | fuel + 1, cs =>
    match parseVal fuel cs with
    | some (v, r1) =>
      match r1.dropWhile wsJson with
      | m :: r2 =>
        if m == ',' then
          match parseItems fuel r2 with
          | some (vs, r3) => some (v :: vs, r3)
          | none => none
        else if m == ']' then some ([v], r2)
        else none
      | [] => none
    | none => none

end

/-- Model of `json.loads`: parse exactly one JSON document; anything but whitespace
after it is an error ("Extra data").  Ignoring leading/trailing JSON
whitespace is realised by trimming it up front, which is equivalent. -/
def pyLoads (cs : List Char) : Option Json :=
  let t := trimBy wsJson cs
  match parseVal (t.length + 1) t with
  | some (v, rest) => if (rest.dropWhile wsJson).isEmpty then some v else none
  | none => none

/-! ### Data model (pydantic models and the global provider state) -/

/-- The `BiasedSpan` pydantic model.  The source field `end` is a Lean keyword
and is embedded as `end_`. -/
structure BiasedSpan where
  text : String
  start : Int
  end_ : Int
  type : String
  deriving DecidableEq

/-- The `SentenceAnalysis` pydantic model. -/
structure SentenceAnalysis where
  sentence : String
  biased_spans : List BiasedSpan
  suggestion : String
  deriving DecidableEq

/-- The `summary` dict of `AnalyzeResponse`: `{"biased_count": ..., "score": ...}`.
The float score is modelled as an exact rational. -/
structure Summary where
  biased_count : Nat
  score : ℚ
  deriving DecidableEq

/-- The `AnalyzeResponse` pydantic model. -/
structure AnalyzeResponse where
  original_text : String
  summary : Summary
  sentences : List SentenceAnalysis
  deriving DecidableEq

/-- The value of the global `current_provider` string
(`"gemini"`, `"groq"` or `"none"`). -/
inductive Provider where
  | gemini
  | groq
  | none
  deriving DecidableEq

/-- The mutable process-wide state: `current_provider` and
`gemini_quota_exceeded`. -/
structure ProviderState where
  current_provider : Provider
  gemini_quota_exceeded : Bool
  deriving DecidableEq

/-- Which SDK clients are configured: truthiness of the globals
`gemini_model` and `groq_client`. -/
structure Config where
  gemini_model : Bool
  groq_client : Bool
  deriving DecidableEq

/-- Outcome of one remote call, were it issued: a raw textual reply, or an
exception whose message carries a quota/429 marker, or any other exception. -/
inductive RemoteOutcome where
  | reply (raw : String)
  | raiseQuota
  | raiseOther
  deriving DecidableEq

/-- Oracle for one unit: the outcome each provider would produce if called. -/
structure UnitEnv where
  gemini : RemoteOutcome
  groq : RemoteOutcome
  deriving DecidableEq

/-- Ghost trace entry recording which provider a dispatch actually called,
in call order (instrumentation only; it does not influence the result). -/
inductive Call where
  | gemini
  | groq
  deriving DecidableEq

/-- Classification the fallback layer applies to a provider exception by
inspecting its message: quota/429 marker present, or anything else
(including "not available" and the Groq JSON-decode failure). -/
inductive PErr where
  | quota
  | other
  deriving DecidableEq

/-- The two HTTP-400 client failures of the `/analyze` endpoint
("Text cannot be empty" / "No valid sentences found"); together they are the
the EmptyInput of the spec.  No other error escapes the endpoint. -/
inductive AnalyzeError where
  | emptyText
  | noValidSentences
  deriving DecidableEq

/-! ### Response normalization of the two provider adapters -/

/-- The neutral fallback dict both adapters build when no JSON can be used:
`{"biased_count": 0, "score": 0.0, "sentences": [{"sentence": text,
"biased_spans": [], "suggestion": text}]}` (the float `0.0` is modelled as
the number `0`; the score field is never inspected downstream). -/
def neutralJson (text : String) : Json :=
  .obj [("biased_count", .num 0), ("score", .num 0),
        ("sentences", .arr [.obj [("sentence", .str text),
                                  ("biased_spans", .arr []),
                                  ("suggestion", .str text)]])]

/-- The code-fence opener `response_text.startswith("```json")` tests for. -/
def fenceJsonL : List Char := ("```json").toList

/-- The code-fence closer `response_text.endswith("```")` tests for. -/
def fenceEndL : List Char := ("```").toList

/-- The Gemini reply normalization: `response.text.strip()`, drop a leading
`"```json"` (7 characters) and a trailing `"```"`, then `json.loads`. -/
def geminiExtract (raw : String) : Option Json :=
  let t0 := trimBy wsPy raw.toList
  let t1 := if fenceJsonL.isPrefixOf t0 then t0.drop 7 else t0
  let t2 := if fenceEndL.isSuffixOf t1 then t1.take (t1.length - 3) else t1
  pyLoads t2

/-- Model of the DOTALL brace regex search: the leftmost match runs
from the first opening brace to the last closing brace after it.  `none`
when the pattern does not occur. -/
def regexBraceExtract (cs : List Char) : Option (List Char) :=
  if (((cs.dropWhile (fun c => !(c == lbraceC))).reverse.dropWhile
        (fun c => !(c == rbraceC))).reverse).isEmpty
  then none
  else some (((cs.dropWhile (fun c => !(c == lbraceC))).reverse.dropWhile
        (fun c => !(c == rbraceC))).reverse)

/-! ### Provider adapters -/

/-- Model of `analyze_text_with_gemini`: unavailable client raises a 503 whose message
has no quota marker (classified `other`); a reply is normalized, with the
`json.JSONDecodeError` handler returning the neutral dict; raised call errors
are classified by their message. -/
def analyze_text_with_gemini (cfg : Config) (env : UnitEnv) (text : String) :
    Except PErr Json :=
  if cfg.gemini_model = false then .error .other
  else
    match env.gemini with
    | .reply raw =>
      match geminiExtract raw with
      | some j => .ok j
      | Option.none => .ok (neutralJson text)
    | .raiseQuota => .error .quota
    | .raiseOther => .error .other

/-- Model of `analyze_text_with_groq`: unavailable client raises a 503 (no quota
marker, classified `other`); on a reply, the first brace-delimited block is
extracted by regex, and `json.loads` of it EITHER succeeds OR raises — the
raise is caught by the generic handler and re-raised as an HTTP 500 whose
message has no quota marker (classified `other`).  Only when the regex finds
no block at all is the neutral dict returned. -/
def analyze_text_with_groq (cfg : Config) (env : UnitEnv) (text : String) :
    Except PErr Json :=
  if cfg.groq_client = false then .error .other
  else
    match env.groq with
    | .reply raw =>
      match regexBraceExtract (trimBy wsPy raw.toList) with
      | some sub =>
        match pyLoads sub with
        | some j => .ok j
        | Option.none => .error .other
      | Option.none => .ok (neutralJson text)
    | .raiseQuota => .error .quota
    | .raiseOther => .error .other

/-! ### Fallback orchestrator -/

/-- The second half of `analyze_text_with_fallback`: the
`if current_provider == "groq" and groq_client:` block, followed by the
terminal `raise` (modelled as `.error ()`, the 503 AllProvidersUnavailable).
On a Groq failure, Gemini is retried once iff `gemini_model` is set and
`gemini_quota_exceeded` is false, and `current_provider` is set to
`"gemini"` before that retry (and is left there even if the retry fails). -/
def fallbackGroqStage (cfg : Config) (st : ProviderState) (env : UnitEnv)
    (text : String) (trace : List Call) :
    ProviderState × List Call × Except Unit Json :=
  if st.current_provider = Provider.groq ∧ cfg.groq_client = true then
    match analyze_text_with_groq cfg env text with
    | .ok j => (st, trace ++ [Call.groq], .ok j)
    | .error _ =>
      if cfg.gemini_model = true ∧ st.gemini_quota_exceeded = false then
        match analyze_text_with_gemini cfg env text with
        | .ok j =>
          (⟨Provider.gemini, st.gemini_quota_exceeded⟩, trace ++ [Call.groq, Call.gemini], .ok j)
        | .error _ =>
          (⟨Provider.gemini, st.gemini_quota_exceeded⟩, trace ++ [Call.groq, Call.gemini], .error ())
      else (st, trace ++ [Call.groq], .error ())
  else (st, trace, .error ())

/-- Model of `analyze_text_with_fallback`: Gemini is tried first iff
`current_provider == "gemini" and gemini_model and not gemini_quota_exceeded`.
On a quota-classified Gemini failure the state becomes
`(groq, quota_exceeded := true)` before falling through; on any other Gemini
failure the state is left unchanged and control falls through to the Groq
block — whose own guard still sees `current_provider == "gemini"`.  The
returned trace lists the providers actually called, in order. -/
def analyze_text_with_fallback (cfg : Config) (st : ProviderState) (env : UnitEnv)
    (text : String) : ProviderState × List Call × Except Unit Json :=
  if st.current_provider = Provider.gemini ∧ cfg.gemini_model = true ∧
      st.gemini_quota_exceeded = false then
    match analyze_text_with_gemini cfg env text with
    | .ok j => (st, [Call.gemini], .ok j)
    | .error e =>
      if e = PErr.quota then
        fallbackGroqStage cfg ⟨Provider.groq, true⟩ env text [Call.gemini]
      else fallbackGroqStage cfg st env text [Call.gemini]
  else fallbackGroqStage cfg st env text []

/-! ### Per-unit record construction in `analyze_text` (lines 557–574) -/

/-- Python truthiness of a parsed JSON value, as used by
`if analysis.get("sentences")`. -/
def jTruthy : Json → Bool
  | .null => false
  | .bool b => b
  | .num n => !(n == 0)
  | .str s => !(s == "")
  | .arr l => !l.isEmpty
  | .obj kvs => !kvs.isEmpty

/-- Model of `value.get(key)`: succeeds only on a dict; on anything else the
attribute access raises (caught by the per-sentence handler). -/
def pyGet : Json → String → Except Unit (Option Json)
  | .obj kvs, k => .ok (jlookup kvs k)
  | _, _ => .error ()

/-- Model of `value[0]` on the truthy `sentences` value: yields the first element of
a non-empty list.  On a truthy non-list (number, bool, dict) the indexing
raises; on a non-empty string it yields a character whose `.get` then
raises — either way the per-sentence handler fires, so both are `.error`. -/
def pyIndexZero : Json → Except Unit Json
  | .arr (x :: _) => .ok x
  | _ => .error ()

/-- Model of the `BiasedSpan(**span)` list-comprehension iteration: a list yields
its elements; an empty string or empty dict yields no elements at all (so
the comprehension is `[]`); iterating anything else either raises directly
or yields non-dict elements on which `**span` raises. -/
def pyIterList : Json → Except Unit (List Json)
  | .arr l => .ok l
  | .str s => if s == "" then .ok [] else .error ()
  | .obj kvs => if kvs.isEmpty then .ok [] else .error ()
  | _ => .error ()

/-- Model of `BiasedSpan(**span)`: requires a dict providing string `text`/`type` and
integer `start`/`end`; extra keys are ignored, anything else fails
validation (caught by the per-sentence handler). -/
def toBiasedSpan : Json → Except Unit BiasedSpan
  | .obj kvs =>
    match jlookup kvs ("text"), jlookup kvs ("start"),
          jlookup kvs ("end"), jlookup kvs ("type") with
    | some (.str t), some (.num a), some (.num b), some (.str ty) => .ok ⟨t, a, b, ty⟩
    | _, _, _, _ => .error ()
  | _ => .error ()

/-- Lines 557–572 of `analyze_text`: pick
`analysis.get("sentences", [...])[0] if analysis.get("sentences") else ()`,
read `biased_spans` (default `[]`) and `suggestion` (default the sentence),
convert the spans, and build the `SentenceAnalysis`.  Any raise along the
way is `.error ()` (the caller then appends the neutral record instead). -/
def buildRecord (sentence : String) (analysis : Json) : Except Unit SentenceAnalysis :=
  -- sentence_data = analysis.get("sentences", [...])[0] if analysis.get("sentences") else ()
  match pyGet analysis ("sentences") with
  | .error _ => .error ()
  | .ok sv =>
    match (match sv with
           | some v => if jTruthy v then pyIndexZero v else Except.ok (Json.obj [])
           | Option.none => Except.ok (Json.obj [])) with
    | .error _ => .error ()
    | .ok sentence_data =>
      -- biased_spans = sentence_data.get("biased_spans", [])
      -- suggestion   = sentence_data.get("suggestion", sentence)
      match pyGet sentence_data ("biased_spans"), pyGet sentence_data ("suggestion") with
      | .ok bsOpt, .ok sgOpt =>
        match pyIterList (bsOpt.getD (Json.arr [])) with
        | .error _ => .error ()
        | .ok spansJ =>
          -- biased_span_objects = [BiasedSpan(**span) for span in biased_spans]
          match spansJ.mapM toBiasedSpan with
          | .error _ => .error ()
          | .ok spans =>
            -- SentenceAnalysis(...) validates that suggestion is a string
            match sgOpt.getD (Json.str sentence) with
            | .str sug => .ok ⟨sentence, spans, sug⟩
            | _ => .error ()
      | _, _ => .error ()

/-! ### The `/analyze` endpoint loop and aggregation -/

/-- One iteration body of the `for sentence in sentences:` loop, after the
dispatch: a successful analysis is normalized by `buildRecord`, and ANY
exception — the AllProvidersUnavailable 503 from the dispatcher as well as a
record-construction failure — is caught by the per-sentence handler, which
appends the neutral record instead.  The second component is the amount
added to `total_biased_count` (`len(biased_spans)` on success, nothing on
the exception path). -/
def unitStep (s : String) (r : Except Unit Json) : SentenceAnalysis × Nat :=
  match r with
  | .ok j =>
    match buildRecord s j with
    | .ok sa => (sa, sa.biased_spans.length)
    | .error _ => (⟨s, [], s⟩, 0)
  | .error _ => (⟨s, [], s⟩, 0)

/-- The `for sentence in sentences:` loop: each unit goes through the
fallback dispatcher (threading the shared state) and `unitStep`.  Returns
the final state, the `(record, ghost trace)` per unit, and the accumulated
`total_biased_count`. -/
def processUnits (cfg : Config) (env : Nat → UnitEnv) :
    ProviderState → Nat → List String →
    ProviderState × List (SentenceAnalysis × List Call) × Nat
  | st, _, [] => (st, [], 0)
  | st, i, s :: rest =>
    ((processUnits cfg env (analyze_text_with_fallback cfg st (env i) s).1 (i + 1) rest).1,
     ((unitStep s (analyze_text_with_fallback cfg st (env i) s).2.2).1,
      (analyze_text_with_fallback cfg st (env i) s).2.1)
       :: (processUnits cfg env (analyze_text_with_fallback cfg st (env i) s).1 (i + 1) rest).2.1,
     (unitStep s (analyze_text_with_fallback cfg st (env i) s).2.2).2
       + (processUnits cfg env (analyze_text_with_fallback cfg st (env i) s).1 (i + 1) rest).2.2)

/-- Floor of a rational (numerator floor-divided by the positive
denominator). -/
def ratFloor (q : ℚ) : Int := q.num.fdiv (q.den : Int)

/-- Round a rational to the nearest integer, ties to even — the tie rule of
the Python `round`. -/
def roundHalfEven (q : ℚ) : Int :=
  let n : Int := ratFloor q
  let f : ℚ := q - (n : ℚ)
  if f < 1 / 2 then n
  else if 1 / 2 < f then n + 1
  else if n % 2 = 0 then n else n + 1

/-- Model of `round(x, 2)` on the (rational-modelled) score. -/
def pyRound2 (q : ℚ) : ℚ := ((roundHalfEven (q * 100) : ℚ)) / 100

/-- The `/analyze` endpoint: strip the text (400 if empty), segment it
(400 if no valid sentences), run the per-unit loop, and aggregate
`summary = {"biased_count": total, "score": round(min(total/len, 1.0), 2)}`.
Returns the final provider state alongside the HTTP result. -/
def analyze_text (cfg : Config) (st : ProviderState) (env : Nat → UnitEnv)
    (input : String) : ProviderState × Except AnalyzeError AnalyzeResponse :=
  let text := pyStrip input
  if text = "" then (st, .error .emptyText)
  else
    let sentences := segment text
    if sentences = [] then (st, .error .noValidSentences)
    else
      match processUnits cfg env st 0 sentences with
      | (st2, results, total) =>
        let bias_score : ℚ :=
          if sentences ≠ [] then min ((total : ℚ) / (sentences.length : ℚ)) 1 else 0
        (st2, .ok ⟨text, ⟨total, pyRound2 bias_score⟩, results.map Prod.fst⟩)

/-! ### Helper lemmas on `dropWhile`, `trimBy` and sublists -/

theorem dropWhile_idem (p : Char → Bool) (l : List Char) :
    (l.dropWhile p).dropWhile p = l.dropWhile p := by
  induction l with
  | nil => simp
  | cons c cs ih =>
    by_cases h : p c
    · simp [List.dropWhile_cons, h, ih]
    · simp [List.dropWhile_cons, h]

theorem dropWhile_all {p : Char → Bool} {l : List Char} (m : List Char)
    (h : ∀ c ∈ l, p c = true) : (l ++ m).dropWhile p = m.dropWhile p := by
  induction l with
  | nil => simp
  | cons c cs ih =>
    have hc : p c = true := h c (by simp)
    simp only [List.cons_append, List.dropWhile_cons, hc, if_true]
    exact ih (fun x hx => h x (by simp [hx]))

theorem dropWhile_all_nil {p : Char → Bool} {l : List Char}
    (h : ∀ c ∈ l, p c = true) : l.dropWhile p = [] := by
  have h2 := dropWhile_all (p := p) (l := l) [] h
  simpa using h2

theorem dropWhile_append_ne_nil {p : Char → Bool} {l : List Char} (m : List Char)
    (h : l.dropWhile p ≠ []) : (l ++ m).dropWhile p = l.dropWhile p ++ m := by
  rw [List.dropWhile_append, if_neg]
  simp [List.isEmpty_iff, h]

theorem dropWhile_cons_self {p : Char → Bool} {c : Char} {l : List Char}
    (h : (c :: l).dropWhile p = c :: l) : p c = false := by
  cases hpc : p c with
  | false => rfl
  | true =>
    rw [List.dropWhile_cons, if_pos hpc] at h
    have hle : (List.dropWhile p l).length ≤ l.length := (List.dropWhile_sublist p).length_le
    rw [h] at hle
    simp at hle

theorem trimBy_sublist (p : Char → Bool) (l : List Char) :
    List.Sublist (trimBy p l) l := by
  have h1 : List.Sublist ((l.dropWhile p).reverse.dropWhile p) (l.dropWhile p).reverse :=
    List.dropWhile_sublist p
  have h2 : List.Sublist (trimBy p l) (l.dropWhile p) := by
    have h3 := List.reverse_sublist.mpr h1
    simpa [trimBy] using h3
  exact h2.trans (List.dropWhile_sublist p)

theorem trimBy_pad (p : Char → Bool) (l pre post : List Char)
    (hpre : ∀ c ∈ pre, p c = true) (hpost : ∀ c ∈ post, p c = true) :
    trimBy p (pre ++ l ++ post) = trimBy p l := by
  unfold trimBy
  rw [List.append_assoc, dropWhile_all _ hpre]
  by_cases h : l.dropWhile p = []
  · have h2 : (l ++ post).dropWhile p = [] := by
      rw [List.dropWhile_append]
      simp [h, dropWhile_all_nil hpost]
    rw [h2, h]
  · rw [dropWhile_append_ne_nil _ h, List.reverse_append,
      dropWhile_all _ (fun c hc => hpost c (List.mem_reverse.mp hc))]

theorem trimBy_prefix_decomp (p : Char → Bool) (l : List Char) :
    l.dropWhile p = trimBy p l ++ ((l.dropWhile p).reverse.takeWhile p).reverse := by
  have hR := List.takeWhile_append_dropWhile (p := p) (l := (l.dropWhile p).reverse)
  have h2 := congrArg List.reverse hR
  simp only [List.reverse_append, List.reverse_reverse] at h2
  exact h2.symm

theorem trimBy_idem (p : Char → Bool) (l : List Char) :
    trimBy p (trimBy p l) = trimBy p l := by
  have hA : (trimBy p l).dropWhile p = trimBy p l := by
    have ha := trimBy_prefix_decomp p l
    cases ht : trimBy p l with
    | nil => simp
    | cons c cs =>
      rw [ht] at ha
      have hself : (l.dropWhile p).dropWhile p = l.dropWhile p := dropWhile_idem p l
      rw [ha, List.cons_append] at hself
      have hc : p c = false := dropWhile_cons_self hself
      rw [List.dropWhile_cons, if_neg (by simp [hc])]
  have hB : ((trimBy p l).reverse).dropWhile p = (trimBy p l).reverse := by
    show ((((l.dropWhile p).reverse.dropWhile p).reverse).reverse).dropWhile p = _
    rw [List.reverse_reverse, dropWhile_idem]
    simp [trimBy]
  show ((((trimBy p l).dropWhile p).reverse).dropWhile p).reverse = trimBy p l
  rw [hA, hB, List.reverse_reverse]

theorem trimBy_eq_self (p : Char → Bool) (l : List Char)
    (hh : ∀ c, l.head? = some c → p c = false)
    (hr : ∀ c, l.reverse.head? = some c → p c = false) : trimBy p l = l := by
  have h1 : l.dropWhile p = l := by
    cases l with
    | nil => simp
    | cons c cs =>
      have hc := hh c rfl
      rw [List.dropWhile_cons, if_neg (by simp [hc])]
  have h2 : l.reverse.dropWhile p = l.reverse := by
    cases hl : l.reverse with
    | nil => simp
    | cons c cs =>
      have hc : p c = false := hr c (by rw [hl]; rfl)
      rw [List.dropWhile_cons, if_neg (by simp [hc])]
  unfold trimBy
  rw [h1, h2, List.reverse_reverse]

theorem trimBy_decomp (p : Char → Bool) (l : List Char) :
    ∃ pre post, (∀ c ∈ pre, p c = true) ∧ (∀ c ∈ post, p c = true) ∧
      l = pre ++ trimBy p l ++ post := by
  refine ⟨l.takeWhile p, ((l.dropWhile p).reverse.takeWhile p).reverse, ?_, ?_, ?_⟩
  · intro c hc
    exact List.mem_takeWhile_imp hc
  · intro c hc
    exact List.mem_takeWhile_imp (by simpa using hc)
  · conv_lhs => rw [← List.takeWhile_append_dropWhile (p := p) (l := l)]
    rw [List.append_assoc]
    congr 1
    exact trimBy_prefix_decomp p l

theorem sublist_join_mono {α : Type} {L1 L2 : List (List α)} (h : List.Sublist L1 L2) :
    List.Sublist L1.flatten L2.flatten := by
  induction h with
  | slnil => simp
  | cons a h ih =>
    simp only [List.flatten_cons]
    exact ih.trans (List.sublist_append_right a _)
  | cons₂ a h ih =>
    simp only [List.flatten_cons]
    exact List.Sublist.append (List.Sublist.refl a) ih

theorem join_map_trim_sublist (p : Char → Bool) (L : List (List Char)) :
    List.Sublist (L.map (trimBy p)).flatten L.flatten := by
  induction L with
  | nil => simp
  | cons x xs ih =>
    simp only [List.map_cons, List.flatten_cons]
    exact List.Sublist.append (trimBy_sublist p x) ih

/-! ### Lemmas about the Segmenter -/

theorem maxRunSplit_cons₂ (p : Char → Bool) (c d : Char) (cs : List Char)
    (q : List Char) (rest : List (List Char))
    (hm : maxRunSplit p (d :: cs) = q :: rest) :
    maxRunSplit p (c :: d :: cs)
      = if p c then (if p d then q :: rest else [] :: q :: rest)
        else (c :: q) :: rest := by
  unfold maxRunSplit
  rw [hm]

theorem maxRunSplit_ne_nil (p : Char → Bool) : ∀ l, maxRunSplit p l ≠ []
  | [] => by simp [maxRunSplit]
  | [c] => by by_cases h : p c <;> simp [maxRunSplit, h]
  | c :: d :: cs => by
    have ih := maxRunSplit_ne_nil p (d :: cs)
    cases hm : maxRunSplit p (d :: cs) with
    | nil => exact absurd hm ih
    | cons q rest =>
      rw [maxRunSplit_cons₂ p c d cs q rest hm]
      by_cases hc : p c
      · by_cases hd : p d <;> simp [hc, hd]
      · simp [hc]

theorem maxRunSplit_no_punct (p : Char → Bool) :
    ∀ l, ∀ piece ∈ maxRunSplit p l, ∀ c ∈ piece, p c = false
  | [] => by simp [maxRunSplit]
  | [c] => by
    intro piece hpiece x hx
    by_cases h : p c
    · rcases (by simpa [maxRunSplit, h] using hpiece : piece = []) with rfl
      simp at hx
    · rcases (by simpa [maxRunSplit, h] using hpiece : piece = [c]) with rfl
      rcases (by simpa using hx : x = c) with rfl
      cases hpc : p x with
      | false => rfl
      | true => exact absurd hpc h
  | c :: d :: cs => by
    have ih := maxRunSplit_no_punct p (d :: cs)
    intro piece hpiece x hx
    cases hm : maxRunSplit p (d :: cs) with
    | nil => exact absurd hm (maxRunSplit_ne_nil p (d :: cs))
    | cons q rest =>
      rw [maxRunSplit_cons₂ p c d cs q rest hm] at hpiece
      by_cases hc : p c
      · by_cases hd : p d
        · rw [if_pos hc, if_pos hd] at hpiece
          exact ih piece (by rw [hm]; exact hpiece) x hx
        · rw [if_pos hc, if_neg hd] at hpiece
          rcases (by simpa using hpiece : piece = [] ∨ piece = q ∨ piece ∈ rest) with
            h1 | h1 | h1
          · rw [h1] at hx; simp at hx
          · exact ih q (by rw [hm]; simp) x (by rw [← h1]; exact hx)
          · exact ih piece (by rw [hm]; simp [h1]) x hx
      · rw [if_neg hc] at hpiece
        rcases (by simpa using hpiece : piece = c :: q ∨ piece ∈ rest) with h1 | h1
        · rw [h1] at hx
          rcases (by simpa using hx : x = c ∨ x ∈ q) with h2 | h2
          · rw [h2]
            cases hpc : p c with
            | false => rfl
            | true => exact absurd hpc hc
          · exact ih q (by rw [hm]; simp) x h2
        · exact ih piece (by rw [hm]; simp [h1]) x hx

theorem maxRunSplit_flatten_sublist (p : Char → Bool) :
    ∀ l, List.Sublist (maxRunSplit p l).flatten l
  | [] => by simp [maxRunSplit]
  | [c] => by by_cases h : p c <;> simp [maxRunSplit, h]
  | c :: d :: cs => by
    have ih := maxRunSplit_flatten_sublist p (d :: cs)
    cases hm : maxRunSplit p (d :: cs) with
    | nil => exact absurd hm (maxRunSplit_ne_nil p (d :: cs))
    | cons q rest =>
      rw [hm] at ih
      rw [maxRunSplit_cons₂ p c d cs q rest hm]
      by_cases hc : p c
      · by_cases hd : p d
        · rw [if_pos hc, if_pos hd]
          exact ih.trans (List.sublist_cons_self c (d :: cs))
        · rw [if_pos hc, if_neg hd]
          simpa using ih.trans (List.sublist_cons_self c (d :: cs))
      · rw [if_neg hc]
        simp only [List.flatten_cons] at ih ⊢
        rw [List.cons_append]
        exact List.Sublist.cons₂ c ih

theorem segmentL_flatten_sublist (l : List Char) :
    List.Sublist (segmentL l).flatten l := by
  unfold segmentL
  have h1 : List.Sublist
      ((((maxRunSplit isSentencePunct l).map (trimBy wsPy)).filter
        (fun cs => !cs.isEmpty))).flatten
      (((maxRunSplit isSentencePunct l).map (trimBy wsPy))).flatten :=
    sublist_join_mono (List.filter_sublist _)
  exact h1.trans ((join_map_trim_sublist wsPy _).trans (maxRunSplit_flatten_sublist _ l))

theorem segmentL_mem (l : List Char) (cs : List Char) (h : cs ∈ segmentL l) :
    cs ≠ [] ∧ trimBy wsPy cs = cs ∧ ∀ c ∈ cs, isSentencePunct c = false := by
  unfold segmentL at h
  rw [List.mem_filter] at h
  rcases h with ⟨hmem, hne⟩
  rw [List.mem_map] at hmem
  rcases hmem with ⟨piece, hpiece, htrim⟩
  refine ⟨by simpa using hne, ?_, ?_⟩
  · rw [← htrim, trimBy_idem]
  · intro c hc
    have hsub : c ∈ piece := (trimBy_sublist wsPy piece).subset (htrim ▸ hc)
    exact maxRunSplit_no_punct isSentencePunct l piece hpiece c hsub

/-! ### Lemmas about the fallback orchestrator -/

theorem fallback_quota_permanent (cfg : Config) (st : ProviderState) (env : UnitEnv)
    (s : String) (h : st.gemini_quota_exceeded = true) :
    (analyze_text_with_fallback cfg st env s).1.gemini_quota_exceeded = true
    ∧ Call.gemini ∉ (analyze_text_with_fallback cfg st env s).2.1 := by
  unfold analyze_text_with_fallback
  rw [if_neg (by simp [h])]
  unfold fallbackGroqStage
  by_cases hg : st.current_provider = Provider.groq ∧ cfg.groq_client = true
  · rw [if_pos hg]
    cases hq : analyze_text_with_groq cfg env s with
    | ok j => simp [h]
    | error e =>
      rw [if_neg (by simp [h])]
      simp [h]
  · rw [if_neg hg]
    simp [h]

theorem fallback_state_frozen (cfg : Config) (st : ProviderState) (env : UnitEnv)
    (s : String) (h : st.gemini_quota_exceeded = true) :
    (analyze_text_with_fallback cfg st env s).1 = st := by
  unfold analyze_text_with_fallback
  rw [if_neg (by simp [h])]
  unfold fallbackGroqStage
  by_cases hg : st.current_provider = Provider.groq ∧ cfg.groq_client = true
  · rw [if_pos hg]
    cases hq : analyze_text_with_groq cfg env s with
    | ok j => rfl
    | error e =>
      rw [if_neg (by simp [h])]
  · rw [if_neg hg]

/-! ### Lemmas about the endpoint loop -/

theorem unitStep_count (s : String) (r : Except Unit Json) :
    (unitStep s r).2 = (unitStep s r).1.biased_spans.length := by
  cases r with
  | error u => rfl
  | ok j =>
    cases hb : buildRecord s j with
    | ok sa => simp [unitStep, hb]
    | error u => simp [unitStep, hb]

theorem processUnits_shape (cfg : Config) (env : Nat → UnitEnv) :
    ∀ (units : List String) (st : ProviderState) (i : Nat),
      (processUnits cfg env st i units).2.1.length = units.length
      ∧ (processUnits cfg env st i units).2.2
          = ((processUnits cfg env st i units).2.1.map
              (fun r => r.1.biased_spans.length)).sum
  | [], st, i => by simp [processUnits]
  | s :: rest, st, i => by
    unfold processUnits
    have ih := processUnits_shape cfg env rest
      ((analyze_text_with_fallback cfg st (env i) s).1) (i + 1)
    simp only [List.length_cons, List.map_cons, List.sum_cons]
    refine ⟨by simp [ih.1], ?_⟩
    rw [unitStep_count]
    simp [ih.2]

theorem processUnits_quota_permanent (cfg : Config) (env : Nat → UnitEnv) :
    ∀ (units : List String) (st : ProviderState) (i : Nat),
      st.gemini_quota_exceeded = true →
      (processUnits cfg env st i units).1.gemini_quota_exceeded = true
      ∧ ∀ r ∈ (processUnits cfg env st i units).2.1, Call.gemini ∉ r.2
  | [], st, i => by simp [processUnits]
  | s :: rest, st, i => by
    intro h
    unfold processUnits
    have hfq := fallback_quota_permanent cfg st (env i) s h
    have ih := processUnits_quota_permanent cfg env rest
      ((analyze_text_with_fallback cfg st (env i) s).1) (i + 1) hfq.1
    refine ⟨by simp [ih.1], ?_⟩
    intro rr hrr
    rcases (by simpa using hrr :
        rr = ((unitStep s (analyze_text_with_fallback cfg st (env i) s).2.2).1,
              (analyze_text_with_fallback cfg st (env i) s).2.1)
        ∨ rr ∈ (processUnits cfg env
            ((analyze_text_with_fallback cfg st (env i) s).1) (i + 1) rest).2.1)
      with h1 | h1
    · rw [h1]
      exact hfq.2
    · exact ih.2 rr h1

/-! ### Lemmas about the response normalizers (code fences, brace regex) -/

theorem pyLoads_congr (A B : List Char) (h : trimBy wsJson A = trimBy wsJson B) :
    pyLoads A = pyLoads B := by
  unfold pyLoads
  rw [h]

/-- The characters surrounding the JSON block in a fenced Gemini reply. -/
def fencePre : List Char := ("```json\n").toList

/-- The closing fence characters. -/
def fencePost : List Char := ("\n```").toList

theorem fencePre_cons : fencePre = Char.ofNat 96 :: ("``json\n").toList := rfl

theorem fencePre_split : fencePre = fenceJsonL ++ ['\n'] := rfl

theorem fencePost_split : fencePost = '\n' :: fenceEndL := rfl

theorem fencePost_rev : fencePost.reverse = Char.ofNat 96 :: ("``\n").toList := by decide

theorem fenced_toList (t : String) :
    ("```json\n" ++ t ++ "\n```").toList = fencePre ++ t.toList ++ fencePost := rfl

theorem trim_fenced_eq_self (t : String) :
    trimBy wsPy (fencePre ++ t.toList ++ fencePost)
      = fencePre ++ t.toList ++ fencePost := by
  apply trimBy_eq_self
  · intro c hc
    rw [fencePre_cons, List.cons_append, List.cons_append] at hc
    simp only [List.head?_cons, Option.some.injEq] at hc
    rw [← hc]
    decide
  · intro c hc
    rw [List.reverse_append, List.reverse_append, fencePost_rev, List.cons_append] at hc
    simp only [List.head?_cons, Option.some.injEq] at hc
    rw [← hc]
    decide

theorem wsPy_not_lbrace {c : Char} (h : wsPy c = true) : (c == lbraceC) = false := by
  simp only [wsPy, Bool.or_eq_true, beq_iff_eq] at h
  rcases h with ((((rfl | rfl) | rfl) | rfl) | rfl) | rfl <;> decide

theorem wsPy_not_rbrace {c : Char} (h : wsPy c = true) : (c == rbraceC) = false := by
  simp only [wsPy, Bool.or_eq_true, beq_iff_eq] at h
  rcases h with ((((rfl | rfl) | rfl) | rfl) | rfl) | rfl <;> decide

theorem regexBraceExtract_pad (pre mid post : List Char)
    (hpre : ∀ c ∈ pre, (c == lbraceC) = false)
    (hpostL : ∀ c ∈ post, (c == lbraceC) = false)
    (hpostR : ∀ c ∈ post, (c == rbraceC) = false) :
    regexBraceExtract (pre ++ mid ++ post) = regexBraceExtract mid := by
  unfold regexBraceExtract
  rw [List.append_assoc, dropWhile_all _ (fun c hc => by simp [hpre c hc])]
  by_cases h : mid.dropWhile (fun c => !(c == lbraceC)) = []
  · have h3 : post.dropWhile (fun c => !(c == lbraceC)) = [] :=
      dropWhile_all_nil (fun c hc => by
        show (!(c == lbraceC)) = true
        rw [hpostL c hc]
        rfl)
    have h2 : (mid ++ post).dropWhile (fun c => !(c == lbraceC)) = [] := by
      rw [List.dropWhile_append, h, h3]
      simp
    rw [h2, h]
  · rw [dropWhile_append_ne_nil _ h, List.reverse_append,
      dropWhile_all _ (fun c hc => by simp [hpostR c (List.mem_reverse.mp hc)])]

theorem regexBraceExtract_trim (l : List Char) :
    regexBraceExtract (trimBy wsPy l) = regexBraceExtract l := by
  obtain ⟨pre, post, hpre, hpost, hdec⟩ := trimBy_decomp wsPy l
  conv_rhs => rw [hdec]
  rw [regexBraceExtract_pad pre (trimBy wsPy l) post
    (fun c hc => wsPy_not_lbrace (hpre c hc))
    (fun c hc => wsPy_not_lbrace (hpost c hc))
    (fun c hc => wsPy_not_rbrace (hpost c hc))]

theorem groqExtract_fence (t : String) :
    regexBraceExtract (trimBy wsPy ("```json\n" ++ t ++ "\n```").toList)
      = regexBraceExtract (trimBy wsPy t.toList) := by
  rw [fenced_toList, trim_fenced_eq_self]
  rw [regexBraceExtract_pad fencePre t.toList fencePost
    (by intro c hc; revert c; decide)
    (by intro c hc; revert c; decide)
    (by intro c hc; revert c; decide)]
  rw [regexBraceExtract_trim]

theorem geminiExtract_fence_json (t : String)
    (h1 : trimBy wsPy t.toList = trimBy wsJson t.toList)
    (h2 : fenceJsonL.isPrefixOf (trimBy wsPy t.toList) = false)
    (h3 : fenceEndL.isSuffixOf (trimBy wsPy t.toList) = false) :
    geminiExtract ("```json\n" ++ t ++ "\n```") = geminiExtract t := by
  have hpre : fenceJsonL.isPrefixOf (fencePre ++ t.toList ++ fencePost) = true := by
    rw [List.isPrefixOf_iff_prefix]
    refine ⟨'\n' :: t.toList ++ fencePost, ?_⟩
    rw [fencePre_split]
    simp
  have hdrop : (fencePre ++ t.toList ++ fencePost).drop 7
      = '\n' :: t.toList ++ fencePost := by
    rw [fencePre_split,
      show (fenceJsonL ++ ['\n']) ++ t.toList ++ fencePost
          = fenceJsonL ++ ('\n' :: t.toList ++ fencePost) by simp,
      show (7 : Nat) = fenceJsonL.length from rfl]
    exact List.drop_left _ _
  have hsuf : fenceEndL.isSuffixOf ('\n' :: t.toList ++ fencePost) = true := by
    rw [List.isSuffixOf_iff_suffix]
    refine ⟨'\n' :: t.toList ++ ['\n'], ?_⟩
    rw [fencePost_split]
    simp
  have htake : ('\n' :: t.toList ++ fencePost).take
        (('\n' :: t.toList ++ fencePost).length - 3)
      = '\n' :: t.toList ++ ['\n'] := by
    rw [fencePost_split,
      show '\n' :: t.toList ++ ('\n' :: fenceEndL)
          = ('\n' :: t.toList ++ ['\n']) ++ fenceEndL by simp,
      show (('\n' :: t.toList ++ ['\n']) ++ fenceEndL).length - 3
          = ('\n' :: t.toList ++ ['\n']).length by simp [fenceEndL]]
    exact List.take_left _ _
  have hwrap : trimBy wsJson ('\n' :: t.toList ++ ['\n'])
      = trimBy wsJson t.toList := by
    have h4 := trimBy_pad wsJson t.toList ['\n'] ['\n']
      (by intro c hc; simp at hc; subst hc; rfl)
      (by intro c hc; simp at hc; subst hc; rfl)
    simpa using h4
  have hbare : trimBy wsJson (trimBy wsPy t.toList) = trimBy wsJson t.toList := by
    rw [h1, trimBy_idem]
  simp only [geminiExtract]
  rw [fenced_toList, trim_fenced_eq_self, hpre]
  simp only [if_true]
  rw [hdrop, hsuf]
  simp only [if_true]
  rw [htake, h2]
  simp only [Bool.false_eq_true, if_false]
  rw [h3]
  simp only [Bool.false_eq_true, if_false]
  exact pyLoads_congr _ _ (hwrap.trans hbare.symm)

/-! ### Claim theorems -/

/-- C7: segmentation splits the text at every maximal run of `.`, `!` or `?`
(consuming the boundary), trims each piece, discards empty pieces and
preserves relative order — `"A. B! C?"` yields exactly `["A", "B", "C"]` —
and an input that is empty or whitespace-only fails with the EmptyInput
client error instead of returning a report.  The trim/discard/order content
is stated as: every produced unit is non-empty, strip-invariant and free of
boundary characters, and the concatenation of the characters of the units is a
sublist of the characters of the input (order preservation). -/
theorem C7_segmenter_spec :
    segment ("A. B! C?") = ["A", "B", "C"]
  ∧ (∀ (cfg : Config) (st : ProviderState) (env : Nat → UnitEnv),
      analyze_text cfg st env ("") = (st, .error .emptyText)
      ∧ analyze_text cfg st env ("   ") = (st, .error .emptyText))
  ∧ (∀ (text s : String), s ∈ segment text →
      s ≠ "" ∧ pyStrip s = s ∧ ∀ c ∈ s.toList, isSentencePunct c = false)
  ∧ (∀ text : String,
      List.Sublist ((segment text).map String.toList).flatten text.toList) := by
  refine ⟨by decide, ?_, ?_, ?_⟩
  · intro cfg st env
    exact ⟨rfl, rfl⟩
  · intro text s hs
    unfold segment at hs
    rw [List.mem_map] at hs
    obtain ⟨cs, hcs, hmk⟩ := hs
    obtain ⟨hne, htrim, hpunct⟩ := segmentL_mem text.toList cs hcs
    subst hmk
    refine ⟨?_, ?_, ?_⟩
    · intro h
      exact hne (congrArg String.toList h)
    · show String.mk (trimBy wsPy cs) = String.mk cs
      rw [htrim]
    · exact hpunct
  · intro text
    have hid : ∀ cs : List Char, (String.mk cs).toList = cs := fun _ => rfl
    unfold segment
    rw [List.map_map]
    rw [show String.toList ∘ String.mk = id from funext hid]
    rw [List.map_id]
    exact segmentL_flatten_sublist text.toList

/-- C7 witness: the third conjunct instantiated at the concrete segmentation
`segment "A. B! C?"` and its first unit `"A"`. -/
theorem C7_segmenter_spec_witness :
    ("A" : String) ≠ "" ∧ pyStrip ("A") = "A"
    ∧ ∀ c ∈ ("A" : String).toList, isSentencePunct c = false :=
  C7_segmenter_spec.2.2.1 ("A. B! C?") ("A") (by decide)

/-- C2: evaluating the dispatcher at the scenario of the claim — Primary active,
quota flag clear, both providers configured, the Gemini call raising a
NON-quota error while the Groq call would succeed.  The own fall-through
comments of the source promise a Groq attempt, but the guard of the Groq block
`current_provider == "groq"` still sees `"gemini"`, so Groq is never called
(the trace is `[gemini]` only) and the unit fails with the
AllProvidersUnavailable 503; the state is left unchanged. -/
theorem C2_primary_other_error_skips_secondary :
    analyze_text_with_fallback ⟨true, true⟩ ⟨Provider.gemini, false⟩
      ⟨RemoteOutcome.raiseOther, RemoteOutcome.reply ("x")⟩ ("S")
    = (⟨Provider.gemini, false⟩, [Call.gemini], .error ()) := rfl

/-- C5: evaluating the Groq normalizer at a reply whose first brace-delimited
block is not valid JSON.  `json.loads` of the extracted block raises inside
the `try`, the generic handler re-raises an HTTP 500 (classified `other`),
so the adapter FAILS instead of returning the neutral record — while the
Gemini variant at the same reply absorbs the parse failure into the neutral
record, as the claim (and the own fallback comment of the Groq code) describe. -/
theorem C5_groq_normalizer_raises :
    analyze_text_with_groq ⟨true, true⟩
      ⟨RemoteOutcome.raiseOther, RemoteOutcome.reply ("\x7b bad \x7d")⟩ ("S")
    = .error PErr.other
  ∧ analyze_text_with_gemini ⟨true, true⟩
      ⟨RemoteOutcome.reply ("\x7b bad \x7d"), RemoteOutcome.raiseOther⟩ ("S")
    = .ok (neutralJson ("S")) := ⟨rfl, rfl⟩

/-- C1 counterexample: with no provider configured every unit exhausts both
providers (the per-unit dispatcher returns the AllProvidersUnavailable
failure, first conjunct), yet the request does NOT fail: the per-sentence
handler of the endpoint catches the 503 and fabricates neutral records (empty
`biased_spans`, `suggestion` = the sentence) for both units of `"A. B"`,
returning a successful report — contradicting the claim. -/
theorem C1_counterexample :
    analyze_text_with_fallback ⟨false, false⟩ ⟨Provider.none, false⟩
      ⟨RemoteOutcome.raiseOther, RemoteOutcome.raiseOther⟩ ("A")
    = (⟨Provider.none, false⟩, [], .error ())
  ∧ (analyze_text ⟨false, false⟩ ⟨Provider.none, false⟩
      (fun _ => ⟨RemoteOutcome.raiseOther, RemoteOutcome.raiseOther⟩) ("A. B")).2.map
        (fun r => r.sentences)
    = .ok [⟨"A", [], "A"⟩, ⟨"B", [], "B"⟩] := ⟨rfl, rfl⟩

/-- C1 amended: when a unit exhausts both providers the request still
succeeds — the per-sentence handler of the endpoint absorbs the failure and
appends a neutral record (empty `biased_spans`, `suggestion` = the sentence)
for that unit; `AllProvidersUnavailable` never escapes the endpoint, whose
only failures are the empty-input client errors. -/
theorem C1_amended_neutral_absorption :
    (∀ (cfg : Config) (env : Nat → UnitEnv) (st : ProviderState) (i : Nat)
        (rest : List String) (s : String),
        (analyze_text_with_fallback cfg st (env i) s).2.2.isOk = false →
        ((processUnits cfg env st i (s :: rest)).2.1.head?).map (fun r => r.1)
          = some ⟨s, [], s⟩)
  ∧ (∀ (cfg : Config) (st : ProviderState) (env : Nat → UnitEnv) (input : String),
        pyStrip input ≠ "" → segment (pyStrip input) ≠ [] →
        (analyze_text cfg st env input).2.isOk = true) := by
  constructor
  · intro cfg env st i rest s hfail
    unfold processUnits
    cases hr : (analyze_text_with_fallback cfg st (env i) s).2.2 with
    | ok j =>
      rw [hr] at hfail
      simp [Except.isOk, Except.toBool] at hfail
    | error u =>
      rfl
  · intro cfg st env input h1 h2
    simp only [analyze_text]
    rw [if_neg h1, if_neg h2]
    rfl

/-- C1 amended witness: a unit whose dispatch fails (no providers) yields the
neutral record at the head of the loop output, and the two-unit request
`"A. B"` succeeds. -/
theorem C1_amended_neutral_absorption_witness :
    ((processUnits ⟨false, false⟩
        (fun _ => ⟨RemoteOutcome.raiseOther, RemoteOutcome.raiseOther⟩)
        ⟨Provider.none, false⟩ 0 ["A"]).2.1.head?).map (fun r => r.1)
      = some ⟨"A", [], "A"⟩
  ∧ (analyze_text ⟨false, false⟩ ⟨Provider.none, false⟩
      (fun _ => ⟨RemoteOutcome.raiseOther, RemoteOutcome.raiseOther⟩)
      ("A. B")).2.isOk = true :=
  ⟨C1_amended_neutral_absorption.1 ⟨false, false⟩
      (fun _ => ⟨RemoteOutcome.raiseOther, RemoteOutcome.raiseOther⟩)
      ⟨Provider.none, false⟩ 0 [] ("A") rfl,
   C1_amended_neutral_absorption.2 ⟨false, false⟩ ⟨Provider.none, false⟩
      (fun _ => ⟨RemoteOutcome.raiseOther, RemoteOutcome.raiseOther⟩)
      ("A. B") (by decide) (by decide)⟩

/-- C3 counterexample: with `active_provider = Secondary`, Secondary failing
and Primary (configured, quota clear) succeeding, the code sets
`current_provider = "gemini"` BEFORE the Primary retry — so after the
successful retry the active provider is Primary, not Secondary: the clause
"active_provider is not reverted — it remains Secondary" of the claim is false at this
input (final provider is `gemini`, and `gemini ≠ groq`). -/
theorem C3_counterexample :
    (analyze_text_with_fallback ⟨true, true⟩ ⟨Provider.groq, false⟩
        ⟨RemoteOutcome.reply ("x"), RemoteOutcome.raiseOther⟩ ("S")).1
      = ⟨Provider.gemini, false⟩
  ∧ (analyze_text_with_fallback ⟨true, true⟩ ⟨Provider.groq, false⟩
        ⟨RemoteOutcome.reply ("x"), RemoteOutcome.raiseOther⟩ ("S")).2.1
      = [Call.groq, Call.gemini]
  ∧ (analyze_text_with_fallback ⟨true, true⟩ ⟨Provider.groq, false⟩
        ⟨RemoteOutcome.reply ("x"), RemoteOutcome.raiseOther⟩ ("S")).2.2.isOk = true
  ∧ Provider.gemini ≠ Provider.groq := ⟨rfl, rfl, rfl, by decide⟩

/-- C3 amended: for a unit dispatched while `active_provider = Secondary`
(both providers configured), Secondary is called first; if the Secondary
call fails, Primary is attempted exactly once if and only if
`primary_quota_exceeded = false`; and when Primary is retried,
`active_provider` is set to Primary (reverted) — it does NOT remain
Secondary.  On Secondary success, state and result are untouched. -/
theorem C3_amended_secondary_dispatch :
    ∀ (cfg : Config) (st : ProviderState) (env : UnitEnv) (s : String),
      st.current_provider = Provider.groq → cfg.groq_client = true →
      cfg.gemini_model = true →
      (analyze_text_with_fallback cfg st env s).2.1.head? = some Call.groq
      ∧ (∀ j, analyze_text_with_groq cfg env s = .ok j →
          analyze_text_with_fallback cfg st env s = (st, [Call.groq], .ok j))
      ∧ ((analyze_text_with_groq cfg env s).isOk = false →
          (st.gemini_quota_exceeded = false →
            (analyze_text_with_fallback cfg st env s).2.1 = [Call.groq, Call.gemini]
            ∧ (analyze_text_with_fallback cfg st env s).1.current_provider
                = Provider.gemini)
          ∧ (st.gemini_quota_exceeded = true →
            analyze_text_with_fallback cfg st env s = (st, [Call.groq], .error ()))) := by
  intro cfg st env s hp hg hgm
  unfold analyze_text_with_fallback
  rw [if_neg (by simp [hp])]
  unfold fallbackGroqStage
  rw [if_pos ⟨hp, hg⟩]
  cases hq : analyze_text_with_groq cfg env s with
  | ok j =>
    refine ⟨rfl, ?_, ?_⟩
    · intro j2 hj2
      cases hj2
      rfl
    · intro hfail
      simp [Except.isOk, Except.toBool] at hfail
  | error e =>
    by_cases hqf : st.gemini_quota_exceeded = false
    · rw [if_pos ⟨hgm, hqf⟩]
      cases hgem : analyze_text_with_gemini cfg env s with
      | ok j =>
        refine ⟨rfl, ?_, ?_⟩
        · intro j2 hj2
          cases hj2
        · intro _
          exact ⟨fun _ => ⟨rfl, rfl⟩, fun hqt => absurd hqt (by simp [hqf])⟩
      | error e2 =>
        refine ⟨rfl, ?_, ?_⟩
        · intro j2 hj2
          cases hj2
        · intro _
          exact ⟨fun _ => ⟨rfl, rfl⟩, fun hqt => absurd hqt (by simp [hqf])⟩
    · have hqt : st.gemini_quota_exceeded = true := by
        cases hv : st.gemini_quota_exceeded with
        | false => exact absurd hv hqf
        | true => rfl
      rw [if_neg (by simp [hqt])]
      refine ⟨rfl, ?_, ?_⟩
      · intro j2 hj2
        cases hj2
      · intro _
        exact ⟨fun hqf2 => absurd hqf2 (by simp [hqt]), fun _ => rfl⟩

/-- C3 amended witness: concrete Secondary-active dispatch whose Secondary
call fails and whose Primary retry succeeds: Secondary first, Primary
retried, provider reverted to Primary. -/
theorem C3_amended_secondary_dispatch_witness :
    (analyze_text_with_fallback ⟨true, true⟩ ⟨Provider.groq, false⟩
        ⟨RemoteOutcome.reply ("x"), RemoteOutcome.raiseOther⟩ ("S")).2.1
      = [Call.groq, Call.gemini]
    ∧ (analyze_text_with_fallback ⟨true, true⟩ ⟨Provider.groq, false⟩
        ⟨RemoteOutcome.reply ("x"), RemoteOutcome.raiseOther⟩ ("S")).1.current_provider
      = Provider.gemini :=
  ((C3_amended_secondary_dispatch ⟨true, true⟩ ⟨Provider.groq, false⟩
      ⟨RemoteOutcome.reply ("x"), RemoteOutcome.raiseOther⟩ ("S")
      rfl rfl rfl).2.2 rfl).1 rfl

/-- C4: if Primary is active with the quota flag clear and returns
QuotaExceeded while Secondary is configured and succeeds, then the flag is
set, the active provider becomes Secondary, the same unit is retried once
against Secondary (trace `[gemini, groq]`), the result of the unit comes from Secondary,
and — second conjunct — once the quota flag is set any later dispatch leaves
the state untouched, so Secondary remains active for subsequent units. -/
theorem C4_quota_failover :
    (∀ (cfg : Config) (st : ProviderState) (env : UnitEnv) (s : String) (j : Json),
      st.current_provider = Provider.gemini → st.gemini_quota_exceeded = false →
      cfg.gemini_model = true → cfg.groq_client = true →
      env.gemini = RemoteOutcome.raiseQuota →
      analyze_text_with_groq cfg env s = .ok j →
      analyze_text_with_fallback cfg st env s
        = (⟨Provider.groq, true⟩, [Call.gemini, Call.groq], .ok j))
  ∧ (∀ (cfg : Config) (st : ProviderState) (env : UnitEnv) (s : String),
      st.gemini_quota_exceeded = true →
      (analyze_text_with_fallback cfg st env s).1 = st) := by
  constructor
  · intro cfg st env s j hp hq hgm hgc hge hok
    unfold analyze_text_with_fallback
    rw [if_pos ⟨hp, hgm, hq⟩]
    have hgem : analyze_text_with_gemini cfg env s = .error PErr.quota := by
      unfold analyze_text_with_gemini
      rw [if_neg (by simp [hgm]), hge]
    rw [hgem]
    show fallbackGroqStage cfg ⟨Provider.groq, true⟩ env s [Call.gemini]
      = (⟨Provider.groq, true⟩, [Call.gemini, Call.groq], .ok j)
    unfold fallbackGroqStage
    rw [if_pos ⟨rfl, hgc⟩]
    rw [hok]
    rfl
  · intro cfg st env s h
    exact fallback_state_frozen cfg st env s h

/-- C4 witness: the failover evaluated at a concrete quota-erroring Primary
and succeeding Secondary. -/
theorem C4_quota_failover_witness :
    analyze_text_with_fallback ⟨true, true⟩ ⟨Provider.gemini, false⟩
      ⟨RemoteOutcome.raiseQuota, RemoteOutcome.reply ("x")⟩ ("S")
      = (⟨Provider.groq, true⟩, [Call.gemini, Call.groq], .ok (neutralJson ("S"))) :=
  C4_quota_failover.1 ⟨true, true⟩ ⟨Provider.gemini, false⟩
    ⟨RemoteOutcome.raiseQuota, RemoteOutcome.reply ("x")⟩ ("S") (neutralJson ("S"))
    rfl rfl rfl rfl rfl rfl

/-- C9: once `gemini_quota_exceeded` is true it stays true across any
dispatch, and no dispatch calls the Primary (Gemini) provider again — at the
single-dispatch level and lifted over the whole per-request loop. -/
theorem C9_quota_exhaustion_permanent :
    (∀ (cfg : Config) (st : ProviderState) (env : UnitEnv) (s : String),
      st.gemini_quota_exceeded = true →
      (analyze_text_with_fallback cfg st env s).1.gemini_quota_exceeded = true
      ∧ Call.gemini ∉ (analyze_text_with_fallback cfg st env s).2.1)
  ∧ (∀ (cfg : Config) (envs : Nat → UnitEnv) (units : List String)
      (st : ProviderState) (i : Nat),
      st.gemini_quota_exceeded = true →
      (processUnits cfg envs st i units).1.gemini_quota_exceeded = true
      ∧ ∀ r ∈ (processUnits cfg envs st i units).2.1, Call.gemini ∉ r.2) :=
  ⟨fun cfg st env s h => fallback_quota_permanent cfg st env s h,
   fun cfg envs units st i h => processUnits_quota_permanent cfg envs units st i h⟩

/-- C9 witness: a dispatch from an exhausted-quota state keeps the flag and
never calls Gemini. -/
theorem C9_quota_exhaustion_permanent_witness :
    (analyze_text_with_fallback ⟨true, true⟩ ⟨Provider.groq, true⟩
        ⟨RemoteOutcome.reply ("x"), RemoteOutcome.raiseOther⟩
        ("S")).1.gemini_quota_exceeded = true
    ∧ Call.gemini ∉ (analyze_text_with_fallback ⟨true, true⟩ ⟨Provider.groq, true⟩
        ⟨RemoteOutcome.reply ("x"), RemoteOutcome.raiseOther⟩ ("S")).2.1 :=
  C9_quota_exhaustion_permanent.1 ⟨true, true⟩ ⟨Provider.groq, true⟩
    ⟨RemoteOutcome.reply ("x"), RemoteOutcome.raiseOther⟩ ("S") rfl

/-- C10: when the parsed analysis object is missing expected fields, the
record of the unit is built from only the first entry of its `sentences` list —
any further entries are discarded (second conjunct: the record does not
depend on them) — with `biased_spans` defaulting to `[]` and `suggestion`
defaulting to the original sentence when those keys are absent. -/
theorem C10_first_entry_defaults :
    (∀ (s : String) (dkvs : List (String × Json)) (rest : List Json),
      jlookup dkvs ("biased_spans") = Option.none →
      jlookup dkvs ("suggestion") = Option.none →
      buildRecord s (Json.obj [(("sentences" : String), Json.arr (Json.obj dkvs :: rest))])
        = .ok ⟨s, [], s⟩)
  ∧ (∀ (s : String) (d : Json) (rest rest2 : List Json),
      buildRecord s (Json.obj [(("sentences" : String), Json.arr (d :: rest))])
        = buildRecord s (Json.obj [(("sentences" : String), Json.arr (d :: rest2))])) := by
  constructor
  · intro s dkvs rest hbs hsg
    show (match pyGet (Json.obj dkvs) ("biased_spans"),
              pyGet (Json.obj dkvs) ("suggestion") with
          | .ok bsOpt, .ok sgOpt =>
            match pyIterList (bsOpt.getD (Json.arr [])) with
            | .error _ => .error ()
            | .ok spansJ =>
              match spansJ.mapM toBiasedSpan with
              | .error _ => .error ()
              | .ok spans =>
                match sgOpt.getD (Json.str s) with
                | .str sug => .ok ⟨s, spans, sug⟩
                | _ => .error ()
          | _, _ => .error ())
        = Except.ok (⟨s, [], s⟩ : SentenceAnalysis)
    have hb2 : pyGet (Json.obj dkvs) ("biased_spans") = .ok Option.none := by
      simp only [pyGet]
      rw [hbs]
    have hs2 : pyGet (Json.obj dkvs) ("suggestion") = .ok Option.none := by
      simp only [pyGet]
      rw [hsg]
    rw [hb2, hs2]
    rfl
  · intro s d rest rest2
    rfl

/-- C10 witness: a `sentences[0]` object with neither expected key yields the
defaulted record, at a concrete object with a discarded second entry. -/
theorem C10_first_entry_defaults_witness :
    buildRecord ("S")
      (Json.obj [(("sentences" : String),
        Json.arr (Json.obj [(("k" : String), Json.null)] :: [Json.null]))])
      = .ok ⟨"S", [], "S"⟩ :=
  C10_first_entry_defaults.1 ("S") [(("k" : String), Json.null)] [Json.null] rfl rfl

/-- C6: every successful report satisfies the aggregation invariants: as many
records as segmented units, `biased_count` equal to the sum of span counts
over the records, and `score` equal to `min(biased_count / sentence_count,
1.0)` rounded to two decimal places (float arithmetic modelled exactly over
the rationals). -/
theorem C6_report_invariants :
    ∀ (cfg : Config) (st : ProviderState) (env : Nat → UnitEnv) (input : String)
      (report : AnalyzeResponse),
      (analyze_text cfg st env input).2 = .ok report →
      report.sentences.length = (segment (pyStrip input)).length
      ∧ report.summary.biased_count
          = (report.sentences.map (fun sa => sa.biased_spans.length)).sum
      ∧ report.summary.score
          = pyRound2 (min ((report.summary.biased_count : ℚ)
              / ((segment (pyStrip input)).length : ℚ)) 1) := by
  intro cfg st env input report h
  simp only [analyze_text] at h
  by_cases h1 : pyStrip input = ""
  · rw [if_pos h1] at h
    simp at h
  · rw [if_neg h1] at h
    by_cases h2 : segment (pyStrip input) = []
    · rw [if_pos h2] at h
      simp at h
    · rw [if_neg h2] at h
      have hshape := processUnits_shape cfg env (segment (pyStrip input)) st 0
      simp only [Except.ok.injEq] at h
      subst h
      refine ⟨?_, ?_, ?_⟩
      · simp [hshape.1]
      · show (processUnits cfg env st 0 (segment (pyStrip input))).2.2 = _
        rw [hshape.2]
        rw [List.map_map]
        rfl
      · show pyRound2 (if segment (pyStrip input) ≠ [] then _ else _) = _
        rw [if_pos h2]

/-- C6 witness: the invariants at a concrete two-unit request whose units all
fail over to the neutral record (zero spans, score 0). -/
theorem C6_report_invariants_witness :
    ((⟨"A. B", ⟨0, pyRound2 (min (((0 : Nat) : ℚ) / ((2 : Nat) : ℚ)) 1)⟩,
        [⟨"A", [], "A"⟩, ⟨"B", [], "B"⟩]⟩ : AnalyzeResponse)).sentences.length
      = (segment (pyStrip ("A. B"))).length
  ∧ ((⟨"A. B", ⟨0, pyRound2 (min (((0 : Nat) : ℚ) / ((2 : Nat) : ℚ)) 1)⟩,
        [⟨"A", [], "A"⟩, ⟨"B", [], "B"⟩]⟩ : AnalyzeResponse)).summary.biased_count
      = (((⟨"A. B", ⟨0, pyRound2 (min (((0 : Nat) : ℚ) / ((2 : Nat) : ℚ)) 1)⟩,
        [⟨"A", [], "A"⟩, ⟨"B", [], "B"⟩]⟩ : AnalyzeResponse)).sentences.map
          (fun sa => sa.biased_spans.length)).sum
  ∧ ((⟨"A. B", ⟨0, pyRound2 (min (((0 : Nat) : ℚ) / ((2 : Nat) : ℚ)) 1)⟩,
        [⟨"A", [], "A"⟩, ⟨"B", [], "B"⟩]⟩ : AnalyzeResponse)).summary.score
      = pyRound2 (min
          ((((⟨"A. B", ⟨0, pyRound2 (min (((0 : Nat) : ℚ) / ((2 : Nat) : ℚ)) 1)⟩,
        [⟨"A", [], "A"⟩, ⟨"B", [], "B"⟩]⟩ : AnalyzeResponse)).summary.biased_count : ℚ)
          / ((segment (pyStrip ("A. B"))).length : ℚ)) 1) :=
  C6_report_invariants ⟨false, false⟩ ⟨Provider.none, false⟩
    (fun _ => ⟨RemoteOutcome.raiseOther, RemoteOutcome.raiseOther⟩) ("A. B")
    ⟨"A. B", ⟨0, pyRound2 (min (((0 : Nat) : ℚ) / ((2 : Nat) : ℚ)) 1)⟩,
      [⟨"A", [], "A"⟩, ⟨"B", [], "B"⟩]⟩ rfl

set_option maxHeartbeats 1600000 in
/-- C8 counterexample: wrapping a JSON analysis object in a PLAIN code fence
(three backticks without the `json` tag) is NOT transparent to the Gemini
normalizer: the prefix test `startswith("```json")` fails, the un-stripped
opener makes `json.loads` fail, and the neutral record (suggestion = the
sentence) is produced — while the bare object yields its own suggestion.
The two normalized records differ, refuting transparency for every
code-fence wrapping. -/
theorem C8_counterexample :
    (analyze_text_with_gemini ⟨true, true⟩
        ⟨RemoteOutcome.reply
          ("```\n\x7b\"sentences\": [\x7b\"suggestion\": \"OK\"\x7d]\x7d\n```"),
         RemoteOutcome.raiseOther⟩ ("S")).map (buildRecord ("S"))
      = .ok (.ok ⟨"S", [], "S"⟩)
  ∧ (analyze_text_with_gemini ⟨true, true⟩
        ⟨RemoteOutcome.reply
          ("\x7b\"sentences\": [\x7b\"suggestion\": \"OK\"\x7d]\x7d"),
         RemoteOutcome.raiseOther⟩ ("S")).map (buildRecord ("S"))
      = .ok (.ok ⟨"S", [], "OK"⟩)
  ∧ ((⟨"S", [], "S"⟩ : SentenceAnalysis) ≠ ⟨"S", [], "OK"⟩) :=
  ⟨rfl, rfl, by decide⟩

set_option maxHeartbeats 1600000 in
/-- C8 amended: fence transparency holds for the fence the code strips — a
`"```json"` opener with a `"```"` closer: for any reply text `t` (whose
trimmed form does not itself look fenced, and whose edge whitespace is plain
JSON whitespace), both provider normalizers give the same analysis for the
fenced and the bare reply; for the Groq variant the fence is transparent
unconditionally, since the brace regex ignores the brace-free fence. -/
theorem C8_amended_fence_transparency :
    ∀ (t sentence : String) (cfg : Config) (other : RemoteOutcome),
      (trimBy wsPy t.toList = trimBy wsJson t.toList →
       fenceJsonL.isPrefixOf (trimBy wsPy t.toList) = false →
       fenceEndL.isSuffixOf (trimBy wsPy t.toList) = false →
       analyze_text_with_gemini cfg
         ⟨RemoteOutcome.reply ("```json\n" ++ t ++ "\n```"), other⟩ sentence
         = analyze_text_with_gemini cfg ⟨RemoteOutcome.reply t, other⟩ sentence)
      ∧ analyze_text_with_groq cfg
          ⟨other, RemoteOutcome.reply ("```json\n" ++ t ++ "\n```")⟩ sentence
          = analyze_text_with_groq cfg ⟨other, RemoteOutcome.reply t⟩ sentence := by
  intro t sentence cfg other
  constructor
  · intro h1 h2 h3
    have hx := geminiExtract_fence_json t h1 h2 h3
    unfold analyze_text_with_gemini
    simp only []
    rw [hx]
  · have hx := groqExtract_fence t
    unfold analyze_text_with_groq
    simp only []
    rw [hx]

/-- C8 amended witness: transparency of the `"```json"` fence at a concrete
JSON reply, for both provider variants. -/
theorem C8_amended_fence_transparency_witness :
    (analyze_text_with_gemini ⟨true, true⟩
        ⟨RemoteOutcome.reply ("```json\n" ++ "\x7b\"a\": 1\x7d" ++ "\n```"),
         RemoteOutcome.raiseOther⟩ ("S")
      = analyze_text_with_gemini ⟨true, true⟩
        ⟨RemoteOutcome.reply ("\x7b\"a\": 1\x7d"), RemoteOutcome.raiseOther⟩ ("S"))
  ∧ (analyze_text_with_groq ⟨true, true⟩
        ⟨RemoteOutcome.raiseOther,
         RemoteOutcome.reply ("```json\n" ++ "\x7b\"a\": 1\x7d" ++ "\n```")⟩ ("S")
      = analyze_text_with_groq ⟨true, true⟩
        ⟨RemoteOutcome.raiseOther, RemoteOutcome.reply ("\x7b\"a\": 1\x7d")⟩ ("S")) :=
  ⟨(C8_amended_fence_transparency ("\x7b\"a\": 1\x7d") ("S") ⟨true, true⟩
      RemoteOutcome.raiseOther).1 (by decide) (by decide) (by decide),
   (C8_amended_fence_transparency ("\x7b\"a\": 1\x7d") ("S") ⟨true, true⟩
      RemoteOutcome.raiseOther).2⟩

end Oratio
